import Mathlib

/-
  Verification of the peer-to-peer call negotiation and signaling core of
  the LETSCHAT1 repository.

  The model below is a shallow embedding of src/src/lib/webrtc.ts
  (class WebRTCCall and the CallData record it maintains in the
  document store) and of the history status text of
  src/src/components/chat/CallHistory.tsx (getCallStatusText).

  Conventions of the embedding:
  - Timestamps (new Date()) are Nat parameters of the operations.
  - Session descriptions produced by the browser (createOffer,
    createAnswer) are parameters of the operations, since the runtime
    generates them.
  - An ICE candidate carries a wellFormed flag modelling whether
    RTCIceCandidate construction and addIceCandidate succeed on it.
  - The document store holds one call document (doc(db, "calls", callId))
    and the append-only candidates sub-collection.
  - Exceptions that the source catches and logs are modelled by the
    corresponding branch returning the unchanged state; Except is used
    where the inner operation can fail before being caught.
-/

namespace LetsChat

/-- The type field of CallData (webrtc.ts line 19). -/
inductive CallType
  | voice
  | video
deriving DecidableEq, Repr

/-- The status field of CallData (webrtc.ts line 20). -/
inductive CallStatus
  | ringing
  | connected
  | ended
  | rejected
  | missed
deriving DecidableEq, Repr

/-- The terminal statuses named by the spec: ended, rejected, missed. -/
def CallStatus.isTerminal : CallStatus → Bool
  | .ended => true
  | .rejected => true
  | .missed => true
  | _ => false

/-- RTCSessionDescriptionInit as persisted by the source:
a type string plus an sdp payload (webrtc.ts lines 125-128, 172-175). -/
structure SessionDescription where
  descType : String
  sdp : String
deriving DecidableEq, Repr

/-- CallData, the call document in the "calls" collection
(webrtc.ts lines 14-25; written at lines 118-131, 171-177, 257-260,
271-274). -/
structure CallRecord where
  callerId : String
  receiverId : String
  callerName : String
  callerPhoto : Option String
  type : CallType
  status : CallStatus
  offer : Option SessionDescription
  answer : Option SessionDescription
  startedAt : Nat
  endedAt : Option Nat
deriving DecidableEq, Repr

/-- An ICE candidate blob.  wellFormed models whether the runtime accepts
it (RTCIceCandidate construction and addIceCandidate, webrtc.ts
lines 220-221). -/
structure IceCandidate where
  payload : String
  wellFormed : Bool
deriving DecidableEq, Repr

/-- A document of the candidates sub-collection (webrtc.ts lines 84-87).
The source field named from is a Lean keyword, hence fromUser here. -/
structure CandidateDoc where
  candidate : IceCandidate
  fromUser : String
deriving DecidableEq, Repr

/-- The kind of a MediaStreamTrack. -/
inductive TrackKind
  | audio
  | video
deriving DecidableEq, Repr

/-- A MediaStreamTrack: stop() sets stopped, the mute toggles set
enabled (webrtc.ts lines 236, 283-298). -/
structure MediaTrack where
  kind : TrackKind
  stopped : Bool
  enabled : Bool
deriving DecidableEq, Repr

/-- The RTCPeerConnection signaling states this code goes through. -/
inductive SignalingState
  | stable
  | haveLocalOffer
  | haveRemoteOffer
deriving DecidableEq, Repr

/-- The parts of an RTCPeerConnection this code observes or mutates. -/
structure PeerConnection where
  signalingState : SignalingState
  localDescription : Option SessionDescription
  remoteDescription : Option SessionDescription
  appliedCandidates : List IceCandidate
deriving DecidableEq, Repr

/-- The instance fields of class WebRTCCall (webrtc.ts lines 28-42).
hasUnsubscribe models whether the nullable unsubscribe handle stored by
listenForAnswer is currently non-null. -/
structure Session where
  callId : String
  callType : CallType
  currentUserId : String
  otherUserId : String
  peerConnection : Option PeerConnection
  localStream : Option (List MediaTrack)
  remoteStream : Option (List MediaTrack)
  hasUnsubscribe : Bool
deriving DecidableEq, Repr

/-- The WebRTCCall constructor (webrtc.ts lines 37-42). -/
def mkSession (callId : String) (callType : CallType) (currentUserId otherUserId : String) : Session :=
  { callId := callId
    callType := callType
    currentUserId := currentUserId
    otherUserId := otherUserId
    peerConnection := none
    localStream := none
    remoteStream := none
    hasUnsubscribe := false }

/-- track.stop() (webrtc.ts line 236). -/
def stopTrack (t : MediaTrack) : MediaTrack := { t with stopped := true }

/-- The tracks getUserMedia returns for the constraints of
initializeLocalStream: audio always, video only for a video call
(webrtc.ts lines 47-52). -/
def acquiredTracks : CallType → List MediaTrack
  | .voice => [{ kind := .audio, stopped := false, enabled := true }]
  | .video => [{ kind := .audio, stopped := false, enabled := true },
               { kind := .video, stopped := false, enabled := true }]

/-- initializeLocalStream (webrtc.ts lines 45-58): acquires and stores the
local stream. -/
def initializeLocalStream (s : Session) : Session :=
  { s with localStream := some (acquiredTracks s.callType) }

/-- createPeerConnection (webrtc.ts lines 61-97): a fresh connection in
the stable state (the track additions and callbacks registered there are
modelled at their points of effect). -/
def createPeerConnection (s : Session) : Session :=
  let pc : PeerConnection :=
    { signalingState := .stable
      localDescription := none
      remoteDescription := none
      appliedCandidates := [] }
  { s with peerConnection := some pc }

/-- The shared state of one call attempt: the call document, the
candidates sub-collection, and the two WebRTCCall instances. -/
structure World where
  callDoc : Option CallRecord
  candidates : List CandidateDoc
  caller : Session
  receiver : Session
deriving DecidableEq, Repr

/-- Which of the two WebRTCCall instances an operation acts on. -/
inductive Side
  | caller
  | receiver
deriving DecidableEq, Repr

def World.session (w : World) : Side → Session
  | .caller => w.caller
  | .receiver => w.receiver

def World.setSession (w : World) : Side → Session → World
  | .caller, s => { w with caller := s }
  | .receiver, s => { w with receiver := s }

/-- startCall (webrtc.ts lines 100-142), run by the caller:
acquire media, create the connection, create and set the local offer,
setDoc the full call document with status ringing, then subscribe to the
record (listenForAnswer stores the unsubscribe handle). -/
def startCall (callerName : String) (callerPhoto : Option String)
    (offer : SessionDescription) (now : Nat) (w : World) : World :=
  let s := initializeLocalStream w.caller
  let s := createPeerConnection s
  let s := { s with peerConnection := s.peerConnection.map (fun (pc : PeerConnection) =>
    { pc with localDescription := some offer, signalingState := .haveLocalOffer }) }
  let r : CallRecord :=
    { callerId := s.currentUserId
      receiverId := s.otherUserId
      callerName := callerName
      callerPhoto := callerPhoto
      type := s.callType
      status := .ringing
      offer := some offer
      answer := none
      startedAt := now
      endedAt := none }
  let s := { s with hasUnsubscribe := true }
  { w with callDoc := some r, caller := s }

/-- answerCall (webrtc.ts lines 145-185), run by the receiver:
acquire media, getDoc the record (throwing if absent), create the
connection, set the remote offer, create and set the local answer, then
updateDoc the record with the answer and status connected.  The two
throwing paths (missing document; RTCSessionDescription of a missing
offer) leave the state as it was at the throw, the error being caught
and logged by the enclosing try block. -/
def answerCall (answer : SessionDescription) (w : World) : World :=
  let s := initializeLocalStream w.receiver
  match w.callDoc with
  | none => { w with receiver := s }
  | some r =>
    let s := createPeerConnection s
    match r.offer with
    | none => { w with receiver := s }
    | some o =>
      let s := { s with peerConnection := s.peerConnection.map (fun (pc : PeerConnection) =>
        { pc with remoteDescription := some o, signalingState := .haveRemoteOffer }) }
      let s := { s with peerConnection := s.peerConnection.map (fun (pc : PeerConnection) =>
        { pc with localDescription := some answer, signalingState := .stable }) }
      { w with callDoc := some { r with answer := some answer, status := .connected },
               receiver := s }

/-- The local phase of endCall (webrtc.ts lines 234-250): stop every
local track and drop the stream, close and drop the connection, cancel
the record subscription.  The second component is the list of track
objects after stop() ran on them. -/
def endCallLocal (s : Session) : Session × List MediaTrack :=
  let stopped := match s.localStream with
    | some ts => ts.map stopTrack
    | none => []
  ({ s with localStream := none, peerConnection := none, hasUnsubscribe := false },
   stopped)

/-- endCall (webrtc.ts lines 232-265): local teardown, then, when the
call document exists, updateDoc with status ended and a fresh endedAt. -/
def endCall (side : Side) (now : Nat) (w : World) : World :=
  let w := w.setSession side (endCallLocal (w.session side)).1
  match w.callDoc with
  | some r => { w with callDoc := some { r with status := .ended, endedAt := some now } }
  | none => w

/-- rejectCall (webrtc.ts lines 268-280): updateDoc with status rejected
and endedAt, then call endCall.  updateDoc on a missing document throws,
which the catch block logs, so endCall is not reached in that case.
t1 is the timestamp of the rejected write, t2 the one endCall uses. -/
def rejectCall (side : Side) (t1 t2 : Nat) (w : World) : World :=
  match w.callDoc with
  | none => w
  | some r =>
    let w := { w with callDoc := some { r with status := .rejected, endedAt := some t1 } }
    endCall side t2 w

/-- The answer-application half of the listenForAnswer handler
(webrtc.ts lines 194-200): when the snapshot data carries an answer and
the connection exists and is in have-local-offer, set the remote
description. -/
def applyAnswerPhase (w : World) : World :=
  match w.callDoc, w.caller.peerConnection with
  | some d, some pc =>
    match d.answer with
    | some a =>
      if pc.signalingState = .haveLocalOffer then
        let pc2 := { pc with remoteDescription := some a, signalingState := .stable }
        { w with caller := { w.caller with peerConnection := some pc2 } }
      else w
    | none => w
  | _, _ => w

/-- One snapshot delivery to the listenForAnswer handler
(webrtc.ts lines 191-205), on the caller side: the answer-application
phase, then, when the status of the snapshot is ended or rejected, the
endCall reaction to a remote hang-up (line 203). -/
def onAnswerSnapshot (now : Nat) (w : World) : World :=
  let data := w.callDoc
  let w2 := applyAnswerPhase w
  match data with
  | some d =>
    if d.status = .ended ∨ d.status = .rejected then endCall .caller now w2 else w2
  | none => w2

/-- The subscription only delivers while the handle stored by
listenForAnswer is live (endCall cancels it, webrtc.ts lines 247-250). -/
def answerSnapshot (now : Nat) (w : World) : World :=
  if w.caller.hasUnsubscribe then onAnswerSnapshot now w else w

/-- pc.addIceCandidate preceded by RTCIceCandidate construction
(webrtc.ts lines 220-221): fails on a malformed candidate. -/
def addIceCandidate (pc : PeerConnection) (c : IceCandidate) : Except String PeerConnection :=
  if c.wellFormed then
    .ok { pc with appliedCandidates := pc.appliedCandidates ++ [c] }
  else
    .error "Error adding ICE candidate"

/-- One added-document delivery to the listenForRemoteCandidates handler
(webrtc.ts lines 212-227): process only candidates from the other user
while a connection exists; an application failure is caught, logged and
swallowed. -/
def handleCandidate (msg : CandidateDoc) (s : Session) : Session :=
  if msg.fromUser ≠ s.currentUserId then
    match s.peerConnection with
    | some pc =>
      match addIceCandidate pc msg.candidate with
      | .ok pc2 => { s with peerConnection := some pc2 }
      | .error _ => s
    | none => s
  else s

/-- The onicecandidate callback (webrtc.ts lines 80-89): while a
connection exists, append the gathered candidate, tagged with the local
user id, to the candidates sub-collection. -/
def emitLocalCandidate (side : Side) (c : IceCandidate) (w : World) : World :=
  match (w.session side).peerConnection with
  | some _ =>
    { w with candidates := w.candidates ++
        [{ candidate := c, fromUser := (w.session side).currentUserId }] }
  | none => w

/-- toggleAudio (webrtc.ts lines 283-289). -/
def toggleAudio (enabled : Bool) (s : Session) : Session :=
  { s with localStream := s.localStream.map (fun ts => ts.map (fun t =>
      if t.kind = .audio then { t with enabled := enabled } else t)) }

/-- toggleVideo (webrtc.ts lines 292-298). -/
def toggleVideo (enabled : Bool) (s : Session) : Session :=
  { s with localStream := s.localStream.map (fun ts => ts.map (fun t =>
      if t.kind = .video then { t with enabled := enabled } else t)) }

/-- The operation alphabet on one call attempt: the public methods of
WebRTCCall plus the deliveries to its two subscription handlers and the
onicecandidate callback. -/
inductive Op
  | startCall (callerName : String) (callerPhoto : Option String)
      (offer : SessionDescription) (now : Nat)
  | answerCall (answer : SessionDescription)
  | endCall (side : Side) (now : Nat)
  | rejectCall (side : Side) (t1 t2 : Nat)
  | answerSnapshot (now : Nat)
  | deliverCandidate (side : Side) (msg : CandidateDoc)
  | emitCandidate (side : Side) (c : IceCandidate)
  | toggleAudio (side : Side) (enabled : Bool)
  | toggleVideo (side : Side) (enabled : Bool)
deriving DecidableEq, Repr

def step : Op → World → World
  | .startCall n p o t, w => startCall n p o t w
  | .answerCall a, w => answerCall a w
  | .endCall side t, w => endCall side t w
  | .rejectCall side t1 t2, w => rejectCall side t1 t2 w
  | .answerSnapshot t, w => answerSnapshot t w
  | .deliverCandidate side m, w => w.setSession side (handleCandidate m (w.session side))
  | .emitCandidate side c, w => emitLocalCandidate side c w
  | .toggleAudio side e, w => w.setSession side (toggleAudio e (w.session side))
  | .toggleVideo side e, w => w.setSession side (toggleVideo e (w.session side))

def run (ops : List Op) (w : World) : World :=
  ops.foldl (fun w op => step op w) w

/-- The state before any operation: no call document, no candidates, the
two freshly constructed WebRTCCall instances. -/
def init (callId : String) (callType : CallType) (callerId receiverId : String) : World :=
  { callDoc := none
    candidates := []
    caller := mkSession callId callType callerId receiverId
    receiver := mkSession callId callType receiverId callerId }

/-- A world reachable from some initial state by some operation run. -/
def Reachable (w : World) : Prop :=
  ∃ callId callType callerId receiverId ops,
    w = run ops (init callId callType callerId receiverId)

/-- Does an operation run startCall. -/
def isStartCallOp : Op → Bool
  | .startCall .. => true
  | _ => false

/-- Does an operation run answerCall. -/
def isAnswerCallOp : Op → Bool
  | .answerCall _ => true
  | _ => false

/- ------------------------------------------------------------------
   The call history status text of
   src/src/components/chat/CallHistory.tsx (lines 92-107).
   ------------------------------------------------------------------ -/

/-- The fields of the Call interface of CallHistory.tsx that
getCallStatusText reads, plus callerId for stating claims about the
caller as viewer. -/
structure HistoryCall where
  callerId : String
  receiverId : String
  type : CallType
  status : CallStatus
  duration : Option Nat
deriving DecidableEq, Repr

/-- secs.toString().padStart(2, the zero digit) for secs below 60. -/
def padStart2 (n : Nat) : String :=
  if n < 10 then "0" ++ toString n else toString n

/-- JavaScript truthiness of call.duration: a missing or zero duration
is falsy. -/
def durationTruthy : Option Nat → Bool
  | some d => d != 0
  | none => false

/-- getCallStatusText (CallHistory.tsx lines 92-107).  isIncoming of the
source, call.receiverId === currentUser.uid, is inlined at each use. -/
def getCallStatusText (call : HistoryCall) (uid : String) : String :=
  if call.status = .missed then
    if call.receiverId = uid then "Missed call" else "Cancelled"
  else if call.status = .rejected then
    if call.receiverId = uid then "Declined" else "Call declined"
  else if call.status = .ended ∧ durationTruthy call.duration = true then
    toString ((call.duration.getD 0) / 60) ++ ":" ++ padStart2 ((call.duration.getD 0) % 60)
  else
    if call.receiverId = uid then "Incoming" else "Outgoing"

/- ------------------------------------------------------------------
   Concrete fixtures used by the theorems.
   ------------------------------------------------------------------ -/

def offerA : SessionDescription := { descType := "offer", sdp := "sdp-offer" }

def answerA : SessionDescription := { descType := "answer", sdp := "sdp-answer-1" }

def answerB : SessionDescription := { descType := "answer", sdp := "sdp-answer-2" }

/-- A fresh call attempt between users u1 (caller) and u2 (receiver). -/
def w0 : World := init "call_u1_u2_0" CallType.voice "u1" "u2"

/-- The record right after startCall. -/
def recRinging : CallRecord :=
  { callerId := "u1", receiverId := "u2", callerName := "Alice", callerPhoto := none,
    type := CallType.voice, status := CallStatus.ringing, offer := some offerA,
    answer := none, startedAt := 0, endedAt := none }

/-- The record right after startCall followed by a caller endCall at 5. -/
def recEnded : CallRecord :=
  { callerId := "u1", receiverId := "u2", callerName := "Alice", callerPhoto := none,
    type := CallType.voice, status := CallStatus.ended, offer := some offerA,
    answer := none, startedAt := 0, endedAt := some 5 }

/-- A connected record carrying both descriptions. -/
def recConnected : CallRecord :=
  { callerId := "u1", receiverId := "u2", callerName := "Alice", callerPhoto := none,
    type := CallType.voice, status := CallStatus.connected, offer := some offerA,
    answer := some answerA, startedAt := 0, endedAt := none }

/-- The caller-side connection once the answer has been applied. -/
def pcStable : PeerConnection :=
  { signalingState := SignalingState.stable, localDescription := some offerA,
    remoteDescription := some answerA, appliedCandidates := [] }

/-- A caller mid-call: record connected, connection stable, record
subscription still live. -/
def wConnected : World :=
  { callDoc := some recConnected, candidates := [],
    caller := { callId := "call_u1_u2_0", callType := CallType.voice,
                currentUserId := "u1", otherUserId := "u2",
                peerConnection := some pcStable,
                localStream := some (acquiredTracks CallType.voice),
                remoteStream := none, hasUnsubscribe := true },
    receiver := mkSession "call_u1_u2_0" CallType.voice "u2" "u1" }

/-- A malformed inbound candidate from the other user. -/
def badMsg : CandidateDoc :=
  { candidate := { payload := "garbage", wellFormed := false }, fromUser := "u2" }

/-- A well-formed candidate originated by the local user u1 itself. -/
def selfMsg : CandidateDoc :=
  { candidate := { payload := "cand", wellFormed := true }, fromUser := "u1" }

/-- The world after the receiver answered the u1 call attempt. -/
def wAnswered : World :=
  run [Op.startCall "Alice" none offerA 0, Op.answerCall answerA] w0

/- ------------------------------------------------------------------
   Helper lemmas about the operations.
   ------------------------------------------------------------------ -/

theorem run_cons (op : Op) (ops : List Op) (w : World) :
    run (op :: ops) w = run ops (step op w) := rfl

theorem setSession_session (w : World) (side : Side) :
    w.setSession side (w.session side) = w := by
  cases side <;> rfl

theorem session_setSession (w : World) (side : Side) (s : Session) :
    (w.setSession side s).session side = s := by
  cases side <;> rfl

theorem setSession_callDoc (w : World) (side : Side) (s : Session) :
    (w.setSession side s).callDoc = w.callDoc := by
  cases side <;> rfl

theorem endCall_callDoc (side : Side) (t : Nat) (w : World) :
    (endCall side t w).callDoc
      = w.callDoc.map (fun r => { r with status := CallStatus.ended, endedAt := some t }) := by
  cases side <;> cases h : w.callDoc <;> simp [endCall, World.setSession, World.session, h]

theorem rejectCall_callDoc (side : Side) (t1 t2 : Nat) (w : World) :
    (rejectCall side t1 t2 w).callDoc
      = w.callDoc.map (fun r => { r with status := CallStatus.ended, endedAt := some t2 }) := by
  cases h : w.callDoc with
  | none => simp [rejectCall, h]
  | some r => simp [rejectCall, h, endCall_callDoc]

theorem applyAnswerPhase_callDoc (w : World) :
    (applyAnswerPhase w).callDoc = w.callDoc := by
  unfold applyAnswerPhase
  split
  · split
    · split <;> rfl
    · rfl
  · rfl

theorem answerCall_callDoc (a : SessionDescription) (w : World) :
    (answerCall a w).callDoc = w.callDoc
    ∨ ∃ r, w.callDoc = some r ∧
        (answerCall a w).callDoc
          = some { r with answer := some a, status := CallStatus.connected } := by
  cases hd : w.callDoc with
  | none => left; simp [answerCall, hd]
  | some r =>
    cases ho : r.offer with
    | none => left; simp [answerCall, hd, ho]
    | some o => right; exact ⟨r, rfl, by simp [answerCall, hd, ho]⟩

theorem startCall_callDoc (n : String) (p : Option String) (o : SessionDescription)
    (t : Nat) (w : World) :
    (startCall n p o t w).callDoc = some
      { callerId := w.caller.currentUserId, receiverId := w.caller.otherUserId,
        callerName := n, callerPhoto := p, type := w.caller.callType,
        status := CallStatus.ringing, offer := some o, answer := none,
        startedAt := t, endedAt := none } := rfl

theorem answerSnapshot_callDoc (t : Nat) (w : World) :
    (answerSnapshot t w).callDoc = w.callDoc
    ∨ (answerSnapshot t w).callDoc
        = w.callDoc.map (fun r => { r with status := CallStatus.ended, endedAt := some t }) := by
  unfold answerSnapshot
  split
  · unfold onAnswerSnapshot
    cases hd : w.callDoc with
    | none => left; simp [hd, applyAnswerPhase_callDoc]
    | some d =>
      by_cases hs : d.status = CallStatus.ended ∨ d.status = CallStatus.rejected
      · right; simp [hd, hs, endCall_callDoc, applyAnswerPhase_callDoc]
      · left; simp [hd, hs, applyAnswerPhase_callDoc]
  · left; rfl

theorem deliverCandidate_callDoc (side : Side) (m : CandidateDoc) (w : World) :
    (step (Op.deliverCandidate side m) w).callDoc = w.callDoc := by
  simp [step, setSession_callDoc]

theorem emitLocalCandidate_callDoc (side : Side) (c : IceCandidate) (w : World) :
    (emitLocalCandidate side c w).callDoc = w.callDoc := by
  unfold emitLocalCandidate
  split <;> rfl

/-- Any record invariant that holds for the record startCall creates, for
every endCall rewrite, and is preserved by the answerCall update, is
preserved by every operation. -/
theorem step_docInv (P : CallRecord → Prop)
    (hstart : ∀ cu co n ct o t p, P
      { callerId := cu, receiverId := co, callerName := n, callerPhoto := p,
        type := ct, status := CallStatus.ringing, offer := some o, answer := none,
        startedAt := t, endedAt := none })
    (hend : ∀ (r : CallRecord) (t : Nat),
      P { r with status := CallStatus.ended, endedAt := some t })
    (hconn : ∀ (r : CallRecord) (a : SessionDescription),
      P r → P { r with answer := some a, status := CallStatus.connected })
    (op : Op) (w : World) (h : ∀ r, w.callDoc = some r → P r) :
    ∀ r, (step op w).callDoc = some r → P r := by
  cases op with
  | startCall n p o t =>
    intro r hr
    rw [show step (Op.startCall n p o t) w = startCall n p o t w from rfl,
        startCall_callDoc] at hr
    injection hr with hr
    subst hr
    exact hstart _ _ _ _ _ _ _
  | answerCall a =>
    intro r hr
    rw [show step (Op.answerCall a) w = answerCall a w from rfl] at hr
    rcases answerCall_callDoc a w with hca | ⟨r0, hr0, hca⟩
    · rw [hca] at hr; exact h r hr
    · rw [hca] at hr
      injection hr with hr
      subst hr
      exact hconn r0 a (h r0 hr0)
  | endCall side t =>
    intro r hr
    rw [show step (Op.endCall side t) w = endCall side t w from rfl,
        endCall_callDoc] at hr
    cases hd : w.callDoc with
    | none => rw [hd] at hr; exact absurd hr (by simp)
    | some r0 =>
      rw [hd] at hr
      injection hr with hr
      subst hr
      exact hend r0 t
  | rejectCall side t1 t2 =>
    intro r hr
    rw [show step (Op.rejectCall side t1 t2) w = rejectCall side t1 t2 w from rfl,
        rejectCall_callDoc] at hr
    cases hd : w.callDoc with
    | none => rw [hd] at hr; exact absurd hr (by simp)
    | some r0 =>
      rw [hd] at hr
      injection hr with hr
      subst hr
      exact hend r0 t2
  | answerSnapshot t =>
    intro r hr
    rw [show step (Op.answerSnapshot t) w = answerSnapshot t w from rfl] at hr
    rcases answerSnapshot_callDoc t w with hca | hca
    · rw [hca] at hr; exact h r hr
    · rw [hca] at hr
      cases hd : w.callDoc with
      | none => rw [hd] at hr; exact absurd hr (by simp)
      | some r0 =>
        rw [hd] at hr
        injection hr with hr
        subst hr
        exact hend r0 t
  | deliverCandidate side m =>
    intro r hr
    rw [deliverCandidate_callDoc] at hr
    exact h r hr
  | emitCandidate side c =>
    intro r hr
    rw [show step (Op.emitCandidate side c) w = emitLocalCandidate side c w from rfl,
        emitLocalCandidate_callDoc] at hr
    exact h r hr
  | toggleAudio side e =>
    intro r hr
    rw [show (step (Op.toggleAudio side e) w).callDoc = w.callDoc from
        setSession_callDoc w side _] at hr
    exact h r hr
  | toggleVideo side e =>
    intro r hr
    rw [show (step (Op.toggleVideo side e) w).callDoc = w.callDoc from
        setSession_callDoc w side _] at hr
    exact h r hr

/-- Record invariants in the sense of step_docInv hold along every run. -/
theorem run_docInv (P : CallRecord → Prop)
    (hstart : ∀ cu co n ct o t p, P
      { callerId := cu, receiverId := co, callerName := n, callerPhoto := p,
        type := ct, status := CallStatus.ringing, offer := some o, answer := none,
        startedAt := t, endedAt := none })
    (hend : ∀ (r : CallRecord) (t : Nat),
      P { r with status := CallStatus.ended, endedAt := some t })
    (hconn : ∀ (r : CallRecord) (a : SessionDescription),
      P r → P { r with answer := some a, status := CallStatus.connected })
    (ops : List Op) (w : World) (h : ∀ r, w.callDoc = some r → P r) :
    ∀ r, (run ops w).callDoc = some r → P r := by
  induction ops generalizing w with
  | nil => exact h
  | cons op ops ih =>
    rw [run_cons]
    exact ih _ (step_docInv P hstart hend hconn op w h)

theorem endCallLocal_fix (s : Session) :
    (endCallLocal (endCallLocal s).1).1 = (endCallLocal s).1 := rfl

theorem session_endCall (side : Side) (t : Nat) (w : World) :
    (endCall side t w).session side = (endCallLocal (w.session side)).1 := by
  cases side <;> cases h : w.callDoc <;>
    simp [endCall, World.setSession, World.session, h]

/-- Once the local teardown state is a fixed point of endCallLocal,
further endCall operations do not change the local session. -/
theorem run_endCall_fixed (side : Side) (ts : List Nat) (w : World)
    (h : (endCallLocal (w.session side)).1 = w.session side) :
    (run (ts.map (Op.endCall side)) w).session side = w.session side := by
  induction ts generalizing w with
  | nil => rfl
  | cons t ts ih =>
    rw [List.map_cons, run_cons]
    have h1 : (step (Op.endCall side t) w).session side = w.session side := by
      rw [show step (Op.endCall side t) w = endCall side t w from rfl,
          session_endCall, h]
    calc (run (ts.map (Op.endCall side)) (step (Op.endCall side t) w)).session side
        = (step (Op.endCall side t) w).session side := ih _ (by rw [h1]; exact h)
      _ = w.session side := h1

/- ------------------------------------------------------------------
   Claim theorems.
   ------------------------------------------------------------------ -/

/-- C1: the claimed terminal-state immutability fails on the code.  On the
run startCall, endCall, answerCall: the caller-side endCall puts the
record in the terminal status ended, and the subsequent receiver-side
answerCall (the answer racing the hang-up, which nothing guards against)
overwrites the status with connected — a transition that leaves a
terminal state. -/
theorem C1_terminal_status_overwritten :
    (run [Op.startCall "Alice" none offerA 0, Op.endCall Side.caller 5] w0).callDoc.map
        CallRecord.status = some CallStatus.ended
    ∧ (run [Op.startCall "Alice" none offerA 0, Op.endCall Side.caller 5,
            Op.answerCall answerA] w0).callDoc.map
        CallRecord.status = some CallStatus.connected := by
  constructor <;> rfl

/-- C2: the claimed receiver-decline postcondition status = rejected fails
on the code.  rejectCall first writes status rejected with endedAt, but
then invokes endCall, which overwrites the record with status ended and a
fresh endedAt; so after rejectCall completes the record reads ended, not
rejected.  The other two conjuncts of the claim do hold: endedAt is set
(to the timestamp of the nested endCall) and the receiver never acquired
local media. -/
theorem C2_reject_final_status_is_ended :
    (run [Op.startCall "Alice" none offerA 0,
          Op.rejectCall Side.receiver 5 7] w0).callDoc.map CallRecord.status
      = some CallStatus.ended
    ∧ (run [Op.startCall "Alice" none offerA 0,
            Op.rejectCall Side.receiver 5 7] w0).callDoc.bind CallRecord.endedAt
      = some 7
    ∧ (run [Op.startCall "Alice" none offerA 0,
            Op.rejectCall Side.receiver 5 7] w0).receiver.localStream = none := by
  exact ⟨rfl, rfl, rfl⟩

/-- C4 counterexample: a second answer write is not rejected or ignored.
After the receiver answers with answerA, a repeated answerCall with a
different description answerB is applied as a plain overwrite: the record
ends with answer = answerB. -/
theorem C4_second_answer_overwrites :
    (run [Op.startCall "Alice" none offerA 0, Op.answerCall answerA,
          Op.answerCall answerB] w0).callDoc.bind CallRecord.answer = some answerB
    ∧ answerA ≠ answerB := by
  exact ⟨rfl, by decide⟩

/-- C3: endCall is idempotent on the local state and performs the claimed
cleanup.  After one endCall, any further sequence of endCall operations
(at arbitrary timestamps) leaves the local session unchanged; the local
stream and peer connection handles are null, the record subscription is
cancelled, and every track endCall released was stopped.  (Each repeated
endCall does rewrite the shared record, but the claim is about the local
state.) -/
theorem C3_endCall_idempotent_cleanup (w : World) (side : Side) (t : Nat) (ts : List Nat) :
    (run (ts.map (Op.endCall side)) (step (Op.endCall side t) w)).session side
      = (step (Op.endCall side t) w).session side
    ∧ ((step (Op.endCall side t) w).session side).localStream = none
    ∧ ((step (Op.endCall side t) w).session side).peerConnection = none
    ∧ ((step (Op.endCall side t) w).session side).hasUnsubscribe = false
    ∧ ((endCallLocal (w.session side)).2).all (fun tr => tr.stopped) = true := by
  have hs : (step (Op.endCall side t) w).session side = (endCallLocal (w.session side)).1 :=
    session_endCall side t w
  refine ⟨?_, ?_, ?_, ?_, ?_⟩
  · exact run_endCall_fixed side ts _ (by rw [hs]; exact endCallLocal_fix (w.session side))
  · rw [hs]; rfl
  · rw [hs]; rfl
  · rw [hs]; rfl
  · cases h : (w.session side).localStream <;>
      simp [endCallLocal, h, stopTrack, List.all_eq_true, List.mem_map]

/-- C4 amended: the offer field is written only by the caller-side
startCall and the answer field only by the receiver-side answerCall — for
every operation other than startCall, the offer in the record is
unchanged, and the answer changes only if the operation is an
answerCall.  The exactly-once half of the original claim is refuted by
the counterexample: a second answer write is applied as an overwrite,
not rejected. -/
theorem C4_offer_answer_writer_exclusivity (w : World) (op : Op)
    (hop : isStartCallOp op = false) :
    (step op w).callDoc.bind CallRecord.offer = w.callDoc.bind CallRecord.offer
    ∧ ((step op w).callDoc.bind CallRecord.answer ≠ w.callDoc.bind CallRecord.answer →
        isAnswerCallOp op = true) := by
  cases op with
  | startCall n p o t => simp [isStartCallOp] at hop
  | answerCall a =>
    refine ⟨?_, fun _ => rfl⟩
    rcases answerCall_callDoc a w with hca | ⟨r0, hr0, hca⟩
    · rw [show step (Op.answerCall a) w = answerCall a w from rfl, hca]
    · rw [show step (Op.answerCall a) w = answerCall a w from rfl, hca, hr0]; rfl
  | endCall side t =>
    have hpres : (step (Op.endCall side t) w).callDoc.bind CallRecord.answer
        = w.callDoc.bind CallRecord.answer := by
      rw [show step (Op.endCall side t) w = endCall side t w from rfl, endCall_callDoc]
      cases w.callDoc <;> rfl
    refine ⟨?_, fun hne => absurd hpres hne⟩
    rw [show step (Op.endCall side t) w = endCall side t w from rfl, endCall_callDoc]
    cases w.callDoc <;> rfl
  | rejectCall side t1 t2 =>
    have hpres : (step (Op.rejectCall side t1 t2) w).callDoc.bind CallRecord.answer
        = w.callDoc.bind CallRecord.answer := by
      rw [show step (Op.rejectCall side t1 t2) w = rejectCall side t1 t2 w from rfl,
          rejectCall_callDoc]
      cases w.callDoc <;> rfl
    refine ⟨?_, fun hne => absurd hpres hne⟩
    rw [show step (Op.rejectCall side t1 t2) w = rejectCall side t1 t2 w from rfl,
        rejectCall_callDoc]
    cases w.callDoc <;> rfl
  | answerSnapshot t =>
    have hdoc : (step (Op.answerSnapshot t) w).callDoc = w.callDoc
        ∨ (step (Op.answerSnapshot t) w).callDoc
            = w.callDoc.map (fun r => { r with status := CallStatus.ended, endedAt := some t }) :=
      answerSnapshot_callDoc t w
    have hpres : (step (Op.answerSnapshot t) w).callDoc.bind CallRecord.answer
        = w.callDoc.bind CallRecord.answer := by
      rcases hdoc with hca | hca
      · rw [hca]
      · rw [hca]; cases w.callDoc <;> rfl
    refine ⟨?_, fun hne => absurd hpres hne⟩
    rcases hdoc with hca | hca
    · rw [hca]
    · rw [hca]; cases w.callDoc <;> rfl
  | deliverCandidate side m =>
    refine ⟨by rw [deliverCandidate_callDoc], fun hne => absurd (by rw [deliverCandidate_callDoc]) hne⟩
  | emitCandidate side c =>
    have hdoc : (step (Op.emitCandidate side c) w).callDoc = w.callDoc :=
      emitLocalCandidate_callDoc side c w
    refine ⟨by rw [hdoc], fun hne => absurd (by rw [hdoc]) hne⟩
  | toggleAudio side e =>
    have hdoc : (step (Op.toggleAudio side e) w).callDoc = w.callDoc :=
      setSession_callDoc w side _
    refine ⟨by rw [hdoc], fun hne => absurd (by rw [hdoc]) hne⟩
  | toggleVideo side e =>
    have hdoc : (step (Op.toggleVideo side e) w).callDoc = w.callDoc :=
      setSession_callDoc w side _
    refine ⟨by rw [hdoc], fun hne => absurd (by rw [hdoc]) hne⟩

/-- C4 witness: the exclusivity theorem applied to a concrete non-start
operation, an endCall after the receiver answered: the offer is
untouched. -/
theorem C4_witness :
    (step (Op.endCall Side.caller 5) wAnswered).callDoc.bind CallRecord.offer
      = wAnswered.callDoc.bind CallRecord.offer :=
  (C4_offer_answer_writer_exclusivity wAnswered (Op.endCall Side.caller 5) rfl).1

/-- C5 counterexample: endedAt is not written exactly once, and it is not
set only with a terminal status.  On the run startCall, endCall at 5,
endCall at 9, answerCall: the second endCall rewrites endedAt from 5 to
9, and the late answerCall leaves a record with status connected while
endedAt is still set. -/
theorem C5_endedAt_rewritten :
    let w1 := run [Op.startCall "Alice" none offerA 0, Op.endCall Side.caller 5] w0
    let w2 := step (Op.endCall Side.caller 9) w1
    let w3 := step (Op.answerCall answerA) w2
    w1.callDoc.bind CallRecord.endedAt = some 5
    ∧ w2.callDoc.bind CallRecord.endedAt = some 9
    ∧ w3.callDoc.map CallRecord.status = some CallStatus.connected
    ∧ w3.callDoc.bind CallRecord.endedAt = some 9 :=
  ⟨rfl, rfl, rfl, rfl⟩

/-- C5 amended: in every reachable state a record with a terminal status
has endedAt set, and for every operation other than startCall, whenever
the endedAt field changes the resulting record simultaneously carries a
set endedAt and a terminal status.  The exactly-once half of the original
claim (and the left-to-right half of the iff) is refuted by the
counterexample. -/
theorem C5_endedAt_terminal_discipline (w : World) (op : Op)
    (hw : Reachable w) (hop : isStartCallOp op = false) :
    (∀ r, w.callDoc = some r → r.status.isTerminal = true → r.endedAt.isSome = true)
    ∧ ((step op w).callDoc.bind CallRecord.endedAt ≠ w.callDoc.bind CallRecord.endedAt →
        ∃ r, (step op w).callDoc = some r ∧ r.endedAt.isSome = true
          ∧ r.status.isTerminal = true) := by
  constructor
  · obtain ⟨ci, ct, c1, c2, ops, rfl⟩ := hw
    refine run_docInv (fun r => r.status.isTerminal = true → r.endedAt.isSome = true)
      ?_ ?_ ?_ ops _ ?_
    · intro cu co n ct2 o t p hterm
      simp [CallStatus.isTerminal] at hterm
    · intro r0 t _
      simp
    · intro r0 a _ hterm
      simp [CallStatus.isTerminal] at hterm
    · intro r hr
      simp [init] at hr
  · intro hne
    cases op with
    | startCall n p o t => simp [isStartCallOp] at hop
    | answerCall a =>
      exfalso
      apply hne
      rcases answerCall_callDoc a w with hca | ⟨r0, hr0, hca⟩
      · rw [show step (Op.answerCall a) w = answerCall a w from rfl, hca]
      · rw [show step (Op.answerCall a) w = answerCall a w from rfl, hca, hr0]; rfl
    | endCall side t =>
      rw [show step (Op.endCall side t) w = endCall side t w from rfl, endCall_callDoc]
      cases hd : w.callDoc with
      | none =>
        exfalso
        apply hne
        rw [show step (Op.endCall side t) w = endCall side t w from rfl,
            endCall_callDoc, hd]
        rfl
      | some r0 =>
        exact ⟨{ r0 with status := CallStatus.ended, endedAt := some t },
          by simp, by simp, by simp [CallStatus.isTerminal]⟩
    | rejectCall side t1 t2 =>
      rw [show step (Op.rejectCall side t1 t2) w = rejectCall side t1 t2 w from rfl,
          rejectCall_callDoc]
      cases hd : w.callDoc with
      | none =>
        exfalso
        apply hne
        rw [show step (Op.rejectCall side t1 t2) w = rejectCall side t1 t2 w from rfl,
            rejectCall_callDoc, hd]
        rfl
      | some r0 =>
        exact ⟨{ r0 with status := CallStatus.ended, endedAt := some t2 },
          by simp, by simp, by simp [CallStatus.isTerminal]⟩
    | answerSnapshot t =>
      rcases answerSnapshot_callDoc t w with hca | hca
      · exfalso
        apply hne
        rw [show step (Op.answerSnapshot t) w = answerSnapshot t w from rfl, hca]
      · rw [show step (Op.answerSnapshot t) w = answerSnapshot t w from rfl, hca]
        cases hd : w.callDoc with
        | none =>
          exfalso
          apply hne
          rw [show step (Op.answerSnapshot t) w = answerSnapshot t w from rfl, hca, hd]
          rfl
        | some r0 =>
          exact ⟨{ r0 with status := CallStatus.ended, endedAt := some t },
            by simp, by simp, by simp [CallStatus.isTerminal]⟩
    | deliverCandidate side m =>
      exfalso; apply hne; rw [deliverCandidate_callDoc]
    | emitCandidate side c =>
      exfalso
      apply hne
      rw [show (step (Op.emitCandidate side c) w).callDoc = w.callDoc from
          emitLocalCandidate_callDoc side c w]
    | toggleAudio side e =>
      exfalso
      apply hne
      rw [show (step (Op.toggleAudio side e) w).callDoc = w.callDoc from
          setSession_callDoc w side _]
    | toggleVideo side e =>
      exfalso
      apply hne
      rw [show (step (Op.toggleVideo side e) w).callDoc = w.callDoc from
          setSession_callDoc w side _]

/-- C5 witness: the discipline applied at the concrete reachable state
after startCall and a caller endCall at 5, with a further endCall as the
non-start operation: the terminal record there has endedAt set. -/
theorem C5_witness :
    (run [Op.startCall "Alice" none offerA 0, Op.endCall Side.caller 5] w0).callDoc
      = some recEnded
    ∧ recEnded.endedAt.isSome = true :=
  ⟨rfl,
   (C5_endedAt_terminal_discipline
      (run [Op.startCall "Alice" none offerA 0, Op.endCall Side.caller 5] w0)
      (Op.endCall Side.caller 9)
      ⟨"call_u1_u2_0", CallType.voice, "u1", "u2",
        [Op.startCall "Alice" none offerA 0, Op.endCall Side.caller 5], rfl⟩
      rfl).1 recEnded rfl (by decide)⟩

/-- C6: the listenForAnswer handler applies the remote answer only when a
peer connection exists and is in the have-local-offer state; with the
connection in any other state, or absent, a delivery whose status is not
a remote hang-up (the separate ended and rejected branch of the handler)
changes nothing at all, and the handler is a total function, so nothing
is thrown.  Duplicate and late answers are therefore no-ops. -/
theorem C6_answer_applied_only_when_awaiting (w : World) (now : Nat)
    (hu : w.caller.hasUnsubscribe = true) :
    (∀ d a pc, w.callDoc = some d → d.answer = some a →
        w.caller.peerConnection = some pc →
        pc.signalingState = SignalingState.haveLocalOffer →
        d.status ≠ CallStatus.ended → d.status ≠ CallStatus.rejected →
        (step (Op.answerSnapshot now) w).caller.peerConnection
          = some { pc with remoteDescription := some a,
                           signalingState := SignalingState.stable })
    ∧ (∀ d pc, w.callDoc = some d → w.caller.peerConnection = some pc →
        pc.signalingState ≠ SignalingState.haveLocalOffer →
        d.status ≠ CallStatus.ended → d.status ≠ CallStatus.rejected →
        step (Op.answerSnapshot now) w = w)
    ∧ (∀ d, w.callDoc = some d → w.caller.peerConnection = none →
        d.status ≠ CallStatus.ended → d.status ≠ CallStatus.rejected →
        step (Op.answerSnapshot now) w = w) := by
  refine ⟨?_, ?_, ?_⟩
  · intro d a pc hd ha hp hsig hse hsr
    simp [step, answerSnapshot, hu, onAnswerSnapshot, applyAnswerPhase,
          hd, hp, ha, hsig, hse, hsr]
  · intro d pc hd hp hsig hse hsr
    cases ha : d.answer with
    | none =>
      simp [step, answerSnapshot, hu, onAnswerSnapshot, applyAnswerPhase,
            hd, hp, ha, hse, hsr]
    | some a =>
      simp [step, answerSnapshot, hu, onAnswerSnapshot, applyAnswerPhase,
            hd, hp, ha, hsig, hse, hsr]
  · intro d hd hp hse hsr
    simp [step, answerSnapshot, hu, onAnswerSnapshot, applyAnswerPhase,
          hd, hp, hse, hsr]

/-- C6 witness: a duplicate delivery of the connected snapshot after the
answer was already applied (connection stable) is a no-op. -/
theorem C6_witness :
    wConnected.caller.hasUnsubscribe = true
    ∧ step (Op.answerSnapshot 9) wConnected = wConnected :=
  ⟨rfl,
   (C6_answer_applied_only_when_awaiting wConnected 9 rfl).2.1 recConnected pcStable
     rfl rfl (by decide) (by decide) (by decide)⟩

/-- C7: a failing inbound ICE candidate application is caught and
swallowed: when addIceCandidate fails on the delivered candidate, the
delivery leaves the whole state (record status included) unchanged, and
the handler is a total function, so the error does not propagate. -/
theorem C7_bad_candidate_swallowed (w : World) (side : Side) (msg : CandidateDoc)
    (pc : PeerConnection) (e : String)
    (hpc : (w.session side).peerConnection = some pc)
    (hfail : addIceCandidate pc msg.candidate = Except.error e) :
    step (Op.deliverCandidate side msg) w = w := by
  have hh : handleCandidate msg (w.session side) = w.session side := by
    simp [handleCandidate, hpc, hfail, ite_self]
  show w.setSession side (handleCandidate msg (w.session side)) = w
  rw [hh, setSession_session]

/-- C7 witness: a malformed candidate from the other user arriving during
a connected call leaves the call untouched. -/
theorem C7_witness :
    step (Op.deliverCandidate Side.caller badMsg) wConnected = wConnected :=
  C7_bad_candidate_swallowed wConnected Side.caller badMsg pcStable
    "Error adding ICE candidate" rfl rfl

/-- C8: the code never reaches the status missed.  There is no ring
timer in the source, and no operation in the alphabet of WebRTCCall
writes missed: along every run from the initial state, the record status
is never missed.  (A caller whose call is never answered therefore keeps
a ringing record forever, contradicting the claimed timeout transition:
a code bug relative to the spec, which the declared missed status and
the missed-call rendering of CallHistory.tsx corroborate.) -/
theorem C8_missed_never_written (callId : String) (ct : CallType)
    (callerId receiverId : String) (ops : List Op) (r : CallRecord)
    (h : (run ops (init callId ct callerId receiverId)).callDoc = some r) :
    r.status ≠ CallStatus.missed := by
  refine run_docInv (fun r => r.status ≠ CallStatus.missed) ?_ ?_ ?_ ops _ ?_ r h
  · intro cu co n ct2 o t p
    simp
  · intro r0 t
    simp
  · intro r0 a _
    simp
  · intro r0 hr0
    simp [init] at hr0

/-- C8 witness: the never-missed theorem applied to the concrete record
after startCall. -/
theorem C8_witness :
    (run [Op.startCall "Alice" none offerA 0] w0).callDoc = some recRinging
    ∧ recRinging.status ≠ CallStatus.missed :=
  ⟨rfl,
   C8_missed_never_written "call_u1_u2_0" CallType.voice "u1" "u2"
     [Op.startCall "Alice" none offerA 0] recRinging rfl⟩

/-- C10: the candidates subscription handler filters self-originated
candidates: a delivered candidate document is a no-op when its from
field equals the local user id or when no peer connection exists, and a
delivery that changes anything must come from the other user while a
connection exists. -/
theorem C10_self_candidates_filtered (w : World) (side : Side) (msg : CandidateDoc) :
    (msg.fromUser = (w.session side).currentUserId →
      step (Op.deliverCandidate side msg) w = w)
    ∧ ((w.session side).peerConnection = none →
      step (Op.deliverCandidate side msg) w = w)
    ∧ (step (Op.deliverCandidate side msg) w ≠ w →
      msg.fromUser ≠ (w.session side).currentUserId
        ∧ (w.session side).peerConnection ≠ none) := by
  have hself : msg.fromUser = (w.session side).currentUserId →
      step (Op.deliverCandidate side msg) w = w := by
    intro hf
    have hh : handleCandidate msg (w.session side) = w.session side := by
      unfold handleCandidate
      rw [if_neg (by simp [hf])]
    show w.setSession side (handleCandidate msg (w.session side)) = w
    rw [hh, setSession_session]
  have hnone : (w.session side).peerConnection = none →
      step (Op.deliverCandidate side msg) w = w := by
    intro hp
    have hh : handleCandidate msg (w.session side) = w.session side := by
      unfold handleCandidate
      rw [hp]
      split <;> rfl
    show w.setSession side (handleCandidate msg (w.session side)) = w
    rw [hh, setSession_session]
  refine ⟨hself, hnone, ?_⟩
  intro hne
  constructor
  · intro hf
    exact hne (hself hf)
  · intro hp
    exact hne (hnone hp)

/-- C10 witness: a candidate document from u1 delivered back to the u1
session during a connected call is not applied. -/
theorem C10_witness :
    step (Op.deliverCandidate Side.caller selfMsg) wConnected = wConnected :=
  (C10_self_candidates_filtered wConnected Side.caller selfMsg).1 rfl

/-- C9 counterexample: the history label the caller sees for a missed
call is "Cancelled", not a missed label; the "Missed call" label goes to
the receiver.  (For a rejected call the caller does see "Call declined".) -/
theorem C9_caller_missed_label_is_cancelled :
    getCallStatusText
      { callerId := "A", receiverId := "B", type := CallType.voice,
        status := CallStatus.missed, duration := none } "A" = "Cancelled"
    ∧ getCallStatusText
      { callerId := "A", receiverId := "B", type := CallType.voice,
        status := CallStatus.missed, duration := none } "B" = "Missed call"
    ∧ getCallStatusText
      { callerId := "A", receiverId := "B", type := CallType.voice,
        status := CallStatus.rejected, duration := none } "A" = "Call declined"
    ∧ "Cancelled" ≠ "Missed call" := by
  refine ⟨?_, ?_, ?_, ?_⟩ <;> decide

/-- C9 amended: for a viewer who is not the receiver (in particular the
caller, whose id differs from receiverId), the history status text labels
a missed call "Cancelled" and a rejected call "Call declined". -/
theorem C9_caller_labels (c : HistoryCall) (uid : String)
    (hv : c.receiverId ≠ uid) :
    (c.status = CallStatus.missed → getCallStatusText c uid = "Cancelled")
    ∧ (c.status = CallStatus.rejected → getCallStatusText c uid = "Call declined") := by
  constructor
  · intro h
    simp [getCallStatusText, h, hv]
  · intro h
    simp [getCallStatusText, h, hv]

/-- C9 witness: the amended labels at a concrete missed call viewed by
the caller. -/
theorem C9_caller_labels_witness :
    ({ callerId := "A", receiverId := "B", type := CallType.voice,
       status := CallStatus.missed, duration := none } : HistoryCall).receiverId ≠ "A"
    ∧ getCallStatusText
        { callerId := "A", receiverId := "B", type := CallType.voice,
          status := CallStatus.missed, duration := none } "A" = "Cancelled" :=
  ⟨by decide,
   (C9_caller_labels
     { callerId := "A", receiverId := "B", type := CallType.voice,
       status := CallStatus.missed, duration := none } "A" (by decide)).1 rfl⟩

end LetsChat
